import Mathlib

set_option maxHeartbeats 1000000

namespace NeosrTransforms

/-- A numpy image buffer as used by `mod_crop` and `basic_augment` in
`neosr/data/transforms.py`: `ndim` is the value reported by `img.ndim`, and
`rows` is the grid of cells along the first two axes (a cell is a pixel for a
2-D image and a channel vector for a 3-D image, abstracted by the type
parameter `α`). -/
structure NpArr (α : Type) where
  ndim : Nat
  rows : List (List α)
deriving DecidableEq

/-- The cropping core of `mod_crop` (transforms.py lines 28-30): with
`h, w = img.shape[0], img.shape[1]`, keep the top-left
`(h - h % scale) × (w - w % scale)` sub-region of the first two axes, all
further axes untouched. -/
def modCropData (img : NpArr α) (scale : Nat) : NpArr α :=
  let h := img.rows.length
  let w := (img.rows.headD []).length
  NpArr.mk img.ndim
    ((img.rows.take (h - h % scale)).map (fun r => r.take (w - w % scale)))

/-- The function `mod_crop` (transforms.py lines 14-35): it copies the input,
crops when `img.ndim` is 2 or 3, and raises `ValueError` otherwise.  The
raised error is modelled as `Except.error`, a value surfaced to the immediate
caller (in contrast with `sys.exit` in `paired_random_crop`, modelled below by
a dedicated `PrcOut.exit` constructor). -/
def mod_crop (img : NpArr α) (scale : Nat) : Except String (NpArr α) :=
  if img.ndim = 2 ∨ img.ndim = 3 then Except.ok (modCropData img scale)
  else Except.error ("Wrong img ndim: " ++ toString img.ndim ++ ".")

/-- The call `mod_crop(σ[i], scale)` at the buffer-store level, for the frame
property: the store `σ` holds the buffers the caller can reach.  The body of
`mod_crop` runs `img = img.copy()`, which allocates a fresh buffer, then basic
slicing of that copy, which reads it and yields a view of it; no statement of
the body writes into an already existing buffer, so the embedding only appends
to the store.  The call returns the raised error or the index of the result
buffer, together with the final store. -/
def mod_crop_heap (σ : List (NpArr α)) (i : Nat) (scale : Nat) :
    Except String Nat × List (NpArr α) :=
  let img0 := σ.getD i (NpArr.mk 0 [])
  let σ1 := σ ++ [img0]
  if img0.ndim = 2 ∨ img0.ndim = 3 then
    (Except.ok σ1.length, σ1 ++ [modCropData img0 scale])
  else
    (Except.error ("Wrong img ndim: " ++ toString img0.ndim ++ "."), σ1)

/-- A group argument of `paired_random_crop` or `basic_augment`: either a
single buffer or a Python list of buffers.  The source normalizes with
`if not isinstance(x, list): x = [x]`. -/
inductive Group (β : Type) where
  | single : β → Group β
  | many : List β → Group β
deriving DecidableEq

/-- The internal list view of a group: a single buffer becomes the one-element
list `[x]` (transforms.py lines 69-72 and 187-188). -/
def Group.toList : Group β → List β
  | .single b => [b]
  | .many l => l

/-- The unwrapping convention at the end of `paired_random_crop` and
`basic_augment` (transforms.py lines 127-130 and 189-190): a result list of
length one is returned as its sole element, any other list is returned as a
list. -/
def unwrapList : List β → Group β
  | [x] => Group.single x
  | l => Group.many l

/-- Whether a group is a single (non-list) buffer. -/
def Group.isSingle : Group β → Bool
  | .single _ => true
  | .many _ => false

/-- Observer for fallible results: true exactly on `Except.ok`. -/
def exceptIsOk : Except ε β → Bool
  | Except.ok _ => true
  | Except.error _ => false

instance instDecEqExcept {ε β : Type} [DecidableEq ε] [DecidableEq β] :
    DecidableEq (Except ε β) := fun a b =>
  match a, b with
  | Except.ok x, Except.ok y =>
    if h : x = y then isTrue (by rw [h])
    else isFalse (by intro hc; injection hc; exact h (by assumption))
  | Except.ok _, Except.error _ => isFalse (fun hc => Except.noConfusion hc)
  | Except.error _, Except.ok _ => isFalse (fun hc => Except.noConfusion hc)
  | Except.error x, Except.error y =>
    if h : x = y then isTrue (by rw [h])
    else isFalse (by intro hc; injection hc; exact h (by assumption))

/-- The call `cv2.flip(img, 1, img)`: horizontal flip, mirroring along the
width axis, so each row is reversed. -/
def hflipArr (img : NpArr α) : NpArr α :=
  NpArr.mk img.ndim (img.rows.map List.reverse)

/-- The call `cv2.flip(img, 0, img)`: vertical flip, mirroring along the
height axis, so the order of the rows is reversed. -/
def vflipArr (img : NpArr α) : NpArr α :=
  NpArr.mk img.ndim img.rows.reverse

/-- The error message numpy raises when `transpose(1, 0, 2)` is applied to a
buffer whose number of axes is not 3. -/
def transposeErrMsg : String := "ValueError: axes do not match array"

/-- The call `img.transpose(1, 0, 2)` (transforms.py line 182): swap the first
two axes and keep the third; it requires exactly three axes and raises
otherwise. -/
def transpose102 (img : NpArr α) : Except String (NpArr α) :=
  if img.ndim = 3 then Except.ok (NpArr.mk img.ndim img.rows.transpose)
  else Except.error transposeErrMsg

/-- The inner `_augment` of `basic_augment` (transforms.py lines 176-183):
horizontal flip if chosen, then vertical flip if chosen, then the transpose
rotation if chosen. -/
def augmentOne (hf vf r90 : Bool) (img : NpArr α) : Except String (NpArr α) :=
  let i1 := if hf then hflipArr img else img
  let i2 := if vf then vflipArr i1 else i1
  if r90 then transpose102 i2 else Except.ok i2

/-- The list comprehension `[_augment(img) for img in imgs]`: images are
processed left to right and the first raised error aborts the call. -/
def augmentList (hf vf r90 : Bool) : List (NpArr α) → Except String (List (NpArr α))
  | [] => Except.ok []
  | i :: rest =>
    match augmentOne hf vf r90 i with
    | Except.error m => Except.error m
    | Except.ok a =>
      match augmentList hf vf r90 rest with
      | Except.error m => Except.error m
      | Except.ok r => Except.ok (a :: r)

/-- The return value of `basic_augment`: the images, or the images paired with
the chosen `(hflip, vflip, rot90)` status triple when `return_status` is
true. -/
inductive BAOut (α : Type) where
  | plain : Group (NpArr α) → BAOut α
  | withStatus : Group (NpArr α) → Bool × Bool × Bool → BAOut α
deriving DecidableEq

/-- The function `basic_augment` (transforms.py lines 134-192).  The three
values `s1, s2, s3` model the three `random.random()` draws, compared against
the probabilities exactly as the source does: `hflip and s1 <= flip_prob`,
`rotation and s2 <= flip_prob`, `rotation and s3 <= rotation_prob`.  Floats
are modelled by rationals, which every float value is. -/
def basic_augment (imgs : Group (NpArr α)) (hflip rotation : Bool)
    (flip_prob rotation_prob : Rat) (s1 s2 s3 : Rat) (return_status : Bool) :
    Except String (BAOut α) :=
  let hf := hflip && decide (s1 ≤ flip_prob)
  let vf := rotation && decide (s2 ≤ flip_prob)
  let r90 := rotation && decide (s3 ≤ rotation_prob)
  match augmentList hf vf r90 imgs.toList with
  | Except.error m => Except.error m
  | Except.ok lst =>
    if return_status then Except.ok (BAOut.withStatus (unwrapList lst) (hf, vf, r90))
    else Except.ok (BAOut.plain (unwrapList lst))

/-- Modelled from the spec: the manual reapplication of a returned decision
triple, in the fixed order the spec gives: horizontal flip (mirror along the
width axis) if `hf`, then vertical flip (mirror along the height axis) if
`vf`, then a transpose of the first two axes if `r90`. -/
def applyTriple (hf vf r90 : Bool) (img : NpArr α) : NpArr α :=
  let i1 := if hf then NpArr.mk img.ndim (img.rows.map List.reverse) else img
  let i2 := if vf then NpArr.mk i1.ndim i1.rows.reverse else i1
  if r90 then NpArr.mk i2.ndim i2.rows.transpose else i2

/-- A buffer passed to `paired_random_crop`: either a numpy array or a device
tensor, discriminated by `torch.is_tensor`.  `shape` is the full shape tuple;
`val` maps an index vector to the cell stored there, so a slice is a shape
adjustment together with an index offset, as for a numpy or torch view. -/
structure Buf (α : Type) where
  isTensor : Bool
  shape : List Nat
  val : List Nat → α

/-- The error message of a Python tuple unpacking `h, w = t` when `t` does not
have exactly two elements. -/
def unpackErrMsg : String := "ValueError: values to unpack"

/-- The unpacking `h, w = t`: succeeds exactly on a two-element tuple. -/
def unpack2 : List Nat → Except String (Nat × Nat)
  | [a, b] => Except.ok (a, b)
  | _ => Except.error unpackErrMsg

/-- The spatial-dimension read of `paired_random_crop` (transforms.py lines
82-86): `h, w = x.shape[2:]` on the tensor path and `h, w = x.shape[0:2]` on
the numpy path. -/
def readDims (isT : Bool) (b : Buf α) : Except String (Nat × Nat) :=
  if isT then unpack2 (b.shape.drop 2) else unpack2 (b.shape.take 2)

/-- Basic slicing `[start : start + size]` applied along one axis: the new
extent is clamped the way Python slicing clamps, and reads are offset by
`start` along that axis. -/
def sliceAx (b : Buf α) (axis start size : Nat) : Buf α :=
  let d := b.shape.getD axis 0
  Buf.mk b.isTensor
    (b.shape.set axis (min (start + size) d - min start d))
    (fun idx => b.val (idx.set axis (idx.getD axis 0 + start)))

/-- The crop applied to every buffer of a group (transforms.py lines 104-126):
`v[:, :, top:top+size, left:left+size]` on the tensor path, which slices axes
2 and 3, and `v[top:top+size, left:left+size, ...]` on the numpy path, which
slices axes 0 and 1. -/
def cropBuf (isT : Bool) (top left size : Nat) (b : Buf α) : Buf α :=
  if isT then sliceAx (sliceAx b 2 top size) 3 left size
  else sliceAx (sliceAx b 0 top size) 1 left size

/-- The spatial height and width of a buffer at the axis positions the source
uses for each representation: axes 2 and 3 on the tensor path, axes 0 and 1
on the numpy path. -/
def spatialDims (isT : Bool) (b : Buf α) : Nat × Nat :=
  if isT then (b.shape.getD 2 0, b.shape.getD 3 0)
  else (b.shape.getD 0 0, b.shape.getD 1 0)

/-- Modelled from the spec: reading the trailing two axes of a shape. -/
def trailingTwoAxes (s : List Nat) : Option (Nat × Nat) :=
  match s.reverse with
  | w :: h :: _ => some (h, w)
  | _ => none

/-- Modelled from the spec: reading the leading two axes of a shape. -/
def leadingTwoAxes (s : List Nat) : Option (Nat × Nat) :=
  match s with
  | h :: w :: _ => some (h, w)
  | _ => none

/-- The observable outcome of a `paired_random_crop` call: `exit code` models
`sys.exit(code)` (process termination, not recoverable), `err` models a raised
Python exception (recoverable by the caller), and `ok` is a normal return. -/
inductive PrcOut (α : Type) where
  | exit : Nat → PrcOut α
  | err : String → PrcOut α
  | ok : Group (Buf α) × Group (Buf α) → PrcOut α

/-- The function `paired_random_crop` (transforms.py lines 37-131).  `rTop`
and `rLeft` model the outcomes of the two `random.randint(0, h_lq -
lq_patch_size)` and `random.randint(0, w_lq - lq_patch_size)` draws.  The
input representation is read once from the first GT buffer; the spatial
dimensions are read with `shape[2:]` (tensor) or `shape[0:2]` (numpy); the
two validations call `sys.exit(1)`; the crop origin is the draw rounded down
to a multiple of 16, and the GT origin and patch size are the LQ ones scaled
by `scale`. -/
def paired_random_crop (img_gts img_lqs : Group (Buf α))
    (lq_patch_size scale : Nat) (rTop rLeft : Nat) : PrcOut α :=
  let gts := img_gts.toList
  let lqs := img_lqs.toList
  match gts.head?, lqs.head? with
  | none, _ => PrcOut.err "IndexError: list index out of range"
  | some _, none => PrcOut.err "IndexError: list index out of range"
  | some g0, some l0 =>
    let input_type := g0.isTensor
    match readDims input_type l0, readDims input_type g0 with
    | Except.error m, _ => PrcOut.err m
    | Except.ok _, Except.error m => PrcOut.err m
    | Except.ok (h_lq, w_lq), Except.ok (h_gt, w_gt) =>
      let gt_patch_size := lq_patch_size * scale
      if h_gt ≠ h_lq * scale ∨ w_gt ≠ w_lq * scale then PrcOut.exit 1
      else if h_lq < lq_patch_size ∨ w_lq < lq_patch_size then PrcOut.exit 1
      else
        let top := rTop / 16 * 16
        let left := rLeft / 16 * 16
        let lqs2 := lqs.map (cropBuf input_type top left lq_patch_size)
        let top_gt := top * scale
        let left_gt := left * scale
        let gts2 := gts.map (cropBuf input_type top_gt left_gt gt_patch_size)
        PrcOut.ok (unwrapList gts2, unwrapList lqs2)

/-- Observer: true exactly when a `paired_random_crop` call returned
normally. -/
def prcIsOk : PrcOut α → Bool
  | PrcOut.ok _ => true
  | _ => false

/-- Observer: true exactly when a `paired_random_crop` call raised a
recoverable exception. -/
def prcIsErr : PrcOut α → Bool
  | PrcOut.err _ => true
  | _ => false

/-- Observer: true exactly when a `paired_random_crop` call returned normally
with a single (non-list) GT buffer. -/
def prcGtSingle : PrcOut α → Bool
  | PrcOut.ok (g, _) => g.isSingle
  | _ => false

/-- Observer: true exactly when a `basic_augment` call returned a plain single
(non-list) buffer. -/
def baPlainSingle : Except String (BAOut α) → Bool
  | Except.ok (BAOut.plain g) => g.isSingle
  | _ => false

/-- A concrete numpy-like buffer for witnesses: shape `[h, w]`, contents all
zero. -/
def npBuf (h w : Nat) : Buf Nat := Buf.mk false [h, w] (fun _ => 0)

/-- A concrete 3-D tensor-like buffer for witnesses and counterexamples:
shape `[c, h, w]` in the layout the spec gives for tensors, contents all
zero. -/
def tBuf3 (c h w : Nat) : Buf Nat := Buf.mk true [c, h, w] (fun _ => 0)

/-- A concrete 4-D tensor-like buffer for witnesses: shape `[n, c, h, w]`,
contents all zero. -/
def tBuf4 (n c h w : Nat) : Buf Nat := Buf.mk true [n, c, h, w] (fun _ => 0)

/-- A concrete 3 × 5 grayscale image used by witnesses. -/
def wImg : NpArr Nat :=
  NpArr.mk 2 [[0, 1, 2, 3, 4], [5, 6, 7, 8, 9], [10, 11, 12, 13, 14]]

/-- A concrete 2 × 2 grayscale image used by witnesses. -/
def wImg2 : NpArr Nat := NpArr.mk 2 [[1, 2], [3, 4]]

/-- A concrete 2 × 2 three-axis image used by witnesses; a cell abstracts the
channel vector of one pixel. -/
def wImg3 : NpArr Nat := NpArr.mk 3 [[1, 2], [3, 4]]

theorem NpArr.ext2 (a b : NpArr α) (h1 : a.ndim = b.ndim) (h2 : a.rows = b.rows) :
    a = b := by
  cases a; cases b; simp_all

theorem sub_mod_mod_self (h s : Nat) : (h - h % s) % s = 0 := by
  have h1 : s * (h / s) + h % s = h := Nat.div_add_mod h s
  have h2 : h - h % s = s * (h / s) := by omega
  rw [h2]
  exact Nat.mul_mod_right s (h / s)

theorem modCropData_length (img : NpArr α) (s : Nat) :
    (modCropData img s).rows.length = img.rows.length - img.rows.length % s := by
  simp [modCropData]

theorem headD_map_take (l : List (List α)) (k w2 : Nat) (hk : 0 < k) :
    ((l.take k).map (fun r => r.take w2)).headD [] = (l.headD []).take w2 := by
  cases l with
  | nil => simp
  | cons a t =>
    cases k with
    | zero => omega
    | succ k2 => simp [List.take]

theorem map_take_idem (l : List (List α)) (w2 : Nat) :
    (l.map (fun r => r.take w2)).map (fun r => r.take w2) = l.map (fun r => r.take w2) := by
  simp [List.map_map, Function.comp, List.take_take]

theorem modCropData_head_length (img : NpArr α) (s : Nat) :
    ((modCropData img s).rows.headD []).length % s = 0 := by
  by_cases hk : img.rows.length - img.rows.length % s = 0
  · have hnil : (modCropData img s).rows = [] := by
      have hl := modCropData_length img s
      rw [hk] at hl
      exact List.length_eq_zero.mp hl
    simp [hnil]
  · have hk2 : 0 < img.rows.length - img.rows.length % s := Nat.pos_of_ne_zero hk
    have ehead : (modCropData img s).rows.headD []
        = (img.rows.headD []).take
            ((img.rows.headD []).length - (img.rows.headD []).length % s) :=
      headD_map_take _ _ _ hk2
    rw [ehead]
    have ew : ((img.rows.headD []).take
        ((img.rows.headD []).length - (img.rows.headD []).length % s)).length
        = (img.rows.headD []).length - (img.rows.headD []).length % s := by
      simp [List.length_take]
    rw [ew]
    exact sub_mod_mod_self _ _

theorem modCropData_idem (img : NpArr α) (s : Nat) :
    modCropData (modCropData img s) s = modCropData img s := by
  have hlen0 : (modCropData img s).rows.length % s = 0 := by
    rw [modCropData_length]; exact sub_mod_mod_self _ _
  have hhead0 : ((modCropData img s).rows.headD []).length % s = 0 :=
    modCropData_head_length img s
  apply NpArr.ext2
  · rfl
  · have e0 : (modCropData (modCropData img s) s).rows
        = ((modCropData img s).rows.take
            ((modCropData img s).rows.length - (modCropData img s).rows.length % s)).map
            (fun r => r.take
              (((modCropData img s).rows.headD []).length
                - ((modCropData img s).rows.headD []).length % s)) := rfl
    rw [e0]
    simp only [hlen0, hhead0, Nat.sub_zero, List.take_length]
    by_cases h2 : img.rows.length - img.rows.length % s = 0
    · have hnil : (modCropData img s).rows = [] := by
        have hl := modCropData_length img s
        rw [h2] at hl
        exact List.length_eq_zero.mp hl
      simp [hnil]
    · have h2pos : 0 < img.rows.length - img.rows.length % s := Nat.pos_of_ne_zero h2
      have ehead : (modCropData img s).rows.headD []
          = (img.rows.headD []).take
              ((img.rows.headD []).length - (img.rows.headD []).length % s) :=
        headD_map_take _ _ _ h2pos
      have ew : ((modCropData img s).rows.headD []).length
          = (img.rows.headD []).length - (img.rows.headD []).length % s := by
        rw [ehead]
        simp [List.length_take]
      rw [ew]
      have erows : (modCropData img s).rows
          = (img.rows.take (img.rows.length - img.rows.length % s)).map
              (fun r2 => r2.take
                ((img.rows.headD []).length - (img.rows.headD []).length % s)) := rfl
      rw [erows]
      exact map_take_idem _ _

theorem mod_crop_heap_store (σ : List (NpArr α)) (i s : Nat) :
    (mod_crop_heap σ i s).2
      = if (σ.getD i (NpArr.mk 0 [])).ndim = 2 ∨ (σ.getD i (NpArr.mk 0 [])).ndim = 3
        then σ ++ [σ.getD i (NpArr.mk 0 []), modCropData (σ.getD i (NpArr.mk 0 [])) s]
        else σ ++ [σ.getD i (NpArr.mk 0 [])] := by
  simp only [mod_crop_heap]
  by_cases h : (σ.getD i (NpArr.mk 0 [])).ndim = 2 ∨ (σ.getD i (NpArr.mk 0 [])).ndim = 3
  · rw [if_pos h, if_pos h]
    simp
  · rw [if_neg h, if_neg h]

theorem augmentOne_ndim2_rot (hfb vfb : Bool) (img : NpArr α) (hnd : img.ndim = 2) :
    augmentOne hfb vfb true img = Except.error transposeErrMsg := by
  unfold augmentOne transpose102
  cases hfb <;> cases vfb <;> simp [hflipArr, vflipArr, hnd]

theorem augmentOne_norot (hfb vfb : Bool) (img : NpArr α) :
    augmentOne hfb vfb false img
      = Except.ok (if vfb then vflipArr (if hfb then hflipArr img else img)
                   else (if hfb then hflipArr img else img)) := rfl

/-- C5: for every scale s with 1 ≤ s and every 2-D or 3-D image, mod_crop
succeeds and returns the top-left sub-region of height h - h % s and width
w - w % s, those two sizes are each divisible by s, and applying mod_crop to
the result again returns the result unchanged, so mod_crop composed with
itself equals mod_crop. -/
theorem C5_mod_crop_idempotent (img : NpArr α) (s : Nat)
    (hs : 1 ≤ s) (hnd : img.ndim = 2 ∨ img.ndim = 3) :
    mod_crop img s = Except.ok (modCropData img s)
    ∧ (mod_crop img s).bind (fun r => mod_crop r s) = mod_crop img s
    ∧ (modCropData img s).rows.length % s = 0
    ∧ ((modCropData img s).rows.headD []).length % s = 0
    ∧ (modCropData img s).rows
        = (img.rows.take (img.rows.length - img.rows.length % s)).map
            (fun r =>
              r.take ((img.rows.headD []).length - (img.rows.headD []).length % s)) := by
  have hok : mod_crop img s = Except.ok (modCropData img s) := by
    simp [mod_crop, hnd]
  refine ⟨hok, ?_, ?_, modCropData_head_length img s, rfl⟩
  · rw [hok]
    show mod_crop (modCropData img s) s = Except.ok (modCropData img s)
    have hnd2 : (modCropData img s).ndim = 2 ∨ (modCropData img s).ndim = 3 := hnd
    simp [mod_crop, hnd2, modCropData_idem]
  · rw [modCropData_length]
    exact sub_mod_mod_self _ _

/-- Witness for C5 at a concrete 3 × 5 image and scale 2. -/
theorem C5_witness :
    mod_crop wImg 2 = Except.ok (modCropData wImg 2)
    ∧ (mod_crop wImg 2).bind (fun r => mod_crop r 2) = mod_crop wImg 2
    ∧ (modCropData wImg 2).rows.length % 2 = 0
    ∧ ((modCropData wImg 2).rows.headD []).length % 2 = 0
    ∧ (modCropData wImg 2).rows
        = (wImg.rows.take (wImg.rows.length - wImg.rows.length % 2)).map
            (fun r =>
              r.take ((wImg.rows.headD []).length - (wImg.rows.headD []).length % 2)) :=
  C5_mod_crop_idempotent wImg 2 (by decide) (by decide)

/-- C8: mod_crop fails with the shape error for every buffer whose number of
dimensions is neither 2 nor 3, and the failure is a value surfaced to the
immediate caller (an Except.error, never a process exit). -/
theorem C8_mod_crop_rejects_bad_ndim (img : NpArr α) (s : Nat)
    (h2 : img.ndim ≠ 2) (h3 : img.ndim ≠ 3) :
    mod_crop img s = Except.error ("Wrong img ndim: " ++ toString img.ndim ++ ".")
    ∧ exceptIsOk (mod_crop img s) = false := by
  have hc : ¬(img.ndim = 2 ∨ img.ndim = 3) := by
    intro h
    rcases h with h | h
    · exact h2 h
    · exact h3 h
  constructor
  · simp [mod_crop, hc]
  · simp [mod_crop, hc, exceptIsOk]

/-- Witness for C8 at a concrete 1-D buffer and a concrete 4-D buffer. -/
theorem C8_witness :
    (mod_crop (NpArr.mk 1 [] : NpArr Nat) 2
        = Except.error ("Wrong img ndim: " ++ toString (NpArr.mk 1 [] : NpArr Nat).ndim ++ ".")
      ∧ exceptIsOk (mod_crop (NpArr.mk 1 [] : NpArr Nat) 2) = false)
    ∧ (mod_crop (NpArr.mk 4 [[0]] : NpArr Nat) 3
        = Except.error ("Wrong img ndim: " ++ toString (NpArr.mk 4 [[0]] : NpArr Nat).ndim ++ ".")
      ∧ exceptIsOk (mod_crop (NpArr.mk 4 [[0]] : NpArr Nat) 3) = false) :=
  ⟨C8_mod_crop_rejects_bad_ndim _ 2 (by decide) (by decide),
   C8_mod_crop_rejects_bad_ndim _ 3 (by decide) (by decide)⟩

/-- C9: a call to mod_crop leaves every buffer the caller already had
unchanged: the original store is a prefix of the final store, and every index
that existed before the call still holds its old buffer afterwards. -/
theorem C9_mod_crop_no_mutation (σ : List (NpArr α)) (i s : Nat) :
    (mod_crop_heap σ i s).2.take σ.length = σ
    ∧ ∀ j, j < σ.length →
        (mod_crop_heap σ i s).2.getD j (NpArr.mk 0 []) = σ.getD j (NpArr.mk 0 []) := by
  rw [mod_crop_heap_store]
  constructor
  · split
    · exact List.take_left σ _
    · exact List.take_left σ _
  · intro j hj
    split
    · rw [List.getD_append _ _ _ _ hj]
    · rw [List.getD_append _ _ _ _ hj]

/-- Witness for C9 at a concrete one-buffer store. -/
theorem C9_witness :
    (mod_crop_heap [wImg] 0 2).2.take [wImg].length = [wImg]
    ∧ (mod_crop_heap [wImg] 0 2).2.getD 0 (NpArr.mk 0 []) = [wImg].getD 0 (NpArr.mk 0 []) :=
  ⟨(C9_mod_crop_no_mutation [wImg] 0 2).1,
   (C9_mod_crop_no_mutation [wImg] 0 2).2 0 (by decide)⟩

/-- C10: on a 2-D (grayscale) buffer, basic_augment fails with the transpose
error exactly when the rot90 decision is chosen, and returns normally exactly
when it is not. -/
theorem C10_rot90_fails_on_2d (img : NpArr α) (hf rot : Bool)
    (fp rp s1 s2 s3 : Rat) (rs : Bool) (hnd : img.ndim = 2) :
    ((rot && decide (s3 ≤ rp)) = true →
      basic_augment (Group.single img) hf rot fp rp s1 s2 s3 rs
        = Except.error transposeErrMsg)
    ∧ ((rot && decide (s3 ≤ rp)) = false →
      exceptIsOk (basic_augment (Group.single img) hf rot fp rp s1 s2 s3 rs) = true) := by
  constructor
  · intro hr
    simp [basic_augment, Group.toList, augmentList, hr,
      augmentOne_ndim2_rot _ _ img hnd]
  · intro hr
    cases rs <;>
      simp [basic_augment, Group.toList, augmentList, hr, augmentOne_norot, exceptIsOk]

theorem unwrapList_single (x : β) : unwrapList [x] = Group.single x := rfl

theorem unwrapList_long (l : List β) (h : 2 ≤ l.length) :
    unwrapList l = Group.many l := by
  cases l with
  | nil => simp at h
  | cons a t =>
    cases t with
    | nil => simp at h
    | cons b u => rfl

theorem augmentOne_ok_eq (hfb vfb r90 : Bool) (a b : NpArr α)
    (h : augmentOne hfb vfb r90 a = Except.ok b) : b = applyTriple hfb vfb r90 a := by
  cases r90 with
  | false =>
    replace h : Except.ok (if vfb then vflipArr (if hfb then hflipArr a else a)
        else (if hfb then hflipArr a else a)) = Except.ok b := h
    injection h with h2
    rw [← h2]
    rfl
  | true =>
    replace h : transpose102 (if vfb then vflipArr (if hfb then hflipArr a else a)
        else (if hfb then hflipArr a else a)) = Except.ok b := h
    show b = NpArr.mk (if vfb then vflipArr (if hfb then hflipArr a else a)
        else (if hfb then hflipArr a else a)).ndim
        (if vfb then vflipArr (if hfb then hflipArr a else a)
         else (if hfb then hflipArr a else a)).rows.transpose
    generalize (if vfb then vflipArr (if hfb then hflipArr a else a)
        else (if hfb then hflipArr a else a)) = i2 at h ⊢
    unfold transpose102 at h
    split at h
    · injection h with h2
      exact h2.symm
    · exact Except.noConfusion h

theorem augmentList_ok_eq (hfb vfb r90 : Bool) (l lst : List (NpArr α))
    (h : augmentList hfb vfb r90 l = Except.ok lst) :
    lst = l.map (applyTriple hfb vfb r90) := by
  induction l generalizing lst with
  | nil =>
    simp only [augmentList] at h
    injection h with h2
    simp [← h2]
  | cons a t ih =>
    simp only [augmentList] at h
    cases h1 : augmentOne hfb vfb r90 a with
    | error m => rw [h1] at h; exact Except.noConfusion h
    | ok a2 =>
      rw [h1] at h
      cases h2 : augmentList hfb vfb r90 t with
      | error m => rw [h2] at h; exact Except.noConfusion h
      | ok r =>
        rw [h2] at h
        injection h with h3
        rw [← h3, List.map_cons]
        congr 1
        · exact augmentOne_ok_eq _ _ _ _ _ h1
        · exact ih r h2

theorem augmentList_id (l : List (NpArr α)) :
    augmentList false false false l = Except.ok l := by
  induction l with
  | nil => rfl
  | cons a t ih => simp [augmentList, augmentOne, ih]

/-- The success case of basic_augment without status: the returned group is
the per-image triple application, unwrapped by the singleton convention. -/
theorem basic_augment_ok_plain (imgs : Group (NpArr α)) (hflip rotation : Bool)
    (fp rp s1 s2 s3 : Rat) (out : Group (NpArr α))
    (h : basic_augment imgs hflip rotation fp rp s1 s2 s3 false
      = Except.ok (BAOut.plain out)) :
    out = unwrapList (imgs.toList.map (applyTriple (hflip && decide (s1 ≤ fp))
      (rotation && decide (s2 ≤ fp)) (rotation && decide (s3 ≤ rp)))) := by
  simp only [basic_augment] at h
  cases hl : augmentList (hflip && decide (s1 ≤ fp)) (rotation && decide (s2 ≤ fp))
      (rotation && decide (s3 ≤ rp)) imgs.toList with
  | error m => rw [hl] at h; exact Except.noConfusion h
  | ok lst =>
    rw [hl] at h
    simp only [Bool.false_eq_true, if_false] at h
    injection h with h2
    injection h2 with h3
    rw [← h3, augmentList_ok_eq _ _ _ _ _ hl]

/-- C6: with return_status true, basic_augment returns the chosen
(hflip, vflip, rot90) triple alongside the images, and the returned images
are exactly the manual reapplication of that triple to each source image in
the spec order (horizontal flip, then vertical flip, then transpose of the
first two axes), under the singleton-unwrap convention. -/
theorem C6_replay_status (imgs : Group (NpArr α)) (hflip rotation : Bool)
    (fp rp s1 s2 s3 : Rat) (out : Group (NpArr α)) (st : Bool × Bool × Bool)
    (h : basic_augment imgs hflip rotation fp rp s1 s2 s3 true
      = Except.ok (BAOut.withStatus out st)) :
    st = (hflip && decide (s1 ≤ fp), rotation && decide (s2 ≤ fp),
          rotation && decide (s3 ≤ rp))
    ∧ out = unwrapList (imgs.toList.map (applyTriple st.1 st.2.1 st.2.2)) := by
  simp only [basic_augment] at h
  cases hl : augmentList (hflip && decide (s1 ≤ fp)) (rotation && decide (s2 ≤ fp))
      (rotation && decide (s3 ≤ rp)) imgs.toList with
  | error m => rw [hl] at h; exact Except.noConfusion h
  | ok lst =>
    rw [hl] at h
    simp only [if_true] at h
    injection h with h2
    injection h2 with h3 h4
    refine ⟨h4.symm, ?_⟩
    rw [← h4, ← h3, augmentList_ok_eq _ _ _ _ _ hl]

/-- Witness for C6 at a single concrete three-axis image with all three
transforms chosen. -/
theorem C6_witness :
    ((true, true, true) : Bool × Bool × Bool)
      = (true && decide ((0 : Rat) ≤ 1), true && decide ((0 : Rat) ≤ 1),
         true && decide ((0 : Rat) ≤ 0))
    ∧ Group.single (NpArr.mk 3 [[4, 2], [3, 1]])
      = unwrapList ((Group.single wImg3).toList.map (applyTriple true true true)) :=
  C6_replay_status (Group.single wImg3) true true 1 0 0 0 0
    (Group.single (NpArr.mk 3 [[4, 2], [3, 1]])) (true, true, true) (by decide)

/-- C7 (amended): with hflip false and rotation false, no transform is chosen
and every buffer passes through unchanged regardless of the sampled values;
the returned group is the input group up to the singleton-unwrap convention:
identical for a single (non-list) buffer and for every list of length at
least 2, while a one-element list is returned as its sole element. -/
theorem C7_disabled_flags_identity :
    (∀ (α : Type) (g : Group (NpArr α)) (fp rp s1 s2 s3 : Rat),
        basic_augment g false false fp rp s1 s2 s3 false
          = Except.ok (BAOut.plain (unwrapList g.toList)))
    ∧ (∀ (α : Type) (b : NpArr α) (fp rp s1 s2 s3 : Rat),
        basic_augment (Group.single b) false false fp rp s1 s2 s3 false
          = Except.ok (BAOut.plain (Group.single b)))
    ∧ (∀ (α : Type) (l : List (NpArr α)) (fp rp s1 s2 s3 : Rat), 2 ≤ l.length →
        basic_augment (Group.many l) false false fp rp s1 s2 s3 false
          = Except.ok (BAOut.plain (Group.many l))) := by
  have key : ∀ (α : Type) (g : Group (NpArr α)) (fp rp s1 s2 s3 : Rat),
      basic_augment g false false fp rp s1 s2 s3 false
        = Except.ok (BAOut.plain (unwrapList g.toList)) := by
    intro α g fp rp s1 s2 s3
    simp [basic_augment, augmentList_id]
  refine ⟨key, ?_, ?_⟩
  · intro α b fp rp s1 s2 s3
    rw [key α (Group.single b) fp rp s1 s2 s3]
    rfl
  · intro α l fp rp s1 s2 s3 hl
    rw [key α (Group.many l) fp rp s1 s2 s3]
    rw [show (Group.many l).toList = l from rfl, unwrapList_long l hl]

/-- C7 counterexample: with both flags false, a one-element list input is not
returned unchanged: the list holding one buffer comes back as the bare
buffer, so the output does not equal the input on that input, refuting the
claim as universally stated. -/
theorem C7_counterexample :
    basic_augment (Group.many [wImg2]) false false 0 0 0 0 0 false
      = Except.ok (BAOut.plain (Group.single wImg2))
    ∧ Group.single wImg2 ≠ Group.many [wImg2] := by decide

/-- Witness for C7 at a concrete single buffer and a concrete two-element
list. -/
theorem C7_witness :
    basic_augment (Group.single wImg2) false false 0 1 0 0 0 false
      = Except.ok (BAOut.plain (Group.single wImg2))
    ∧ basic_augment (Group.many [wImg2, wImg]) false false 0 1 0 0 0 false
      = Except.ok (BAOut.plain (Group.many [wImg2, wImg])) :=
  ⟨C7_disabled_flags_identity.2.1 Nat wImg2 0 1 0 0 0,
   C7_disabled_flags_identity.2.2 Nat [wImg2, wImg] 0 1 0 0 0 (by decide)⟩

/-- Witness for C10 at a concrete 2 × 2 grayscale image, with the rotation
family enabled and a sample that chooses rot90. -/
theorem C10_witness :
    (((true : Bool) && decide ((0 : Rat) ≤ 1)) = true →
      basic_augment (Group.single wImg2) false true 0 1 0 0 0 false
        = Except.error transposeErrMsg)
    ∧ (((true : Bool) && decide ((0 : Rat) ≤ 1)) = false →
      exceptIsOk (basic_augment (Group.single wImg2) false true 0 1 0 0 0 false) = true) :=
  C10_rot90_fails_on_2d wImg2 false true 0 1 0 0 0 false (by decide)

theorem unpack2_ok (l : List Nat) (h w : Nat) (he : unpack2 l = Except.ok (h, w)) :
    l = [h, w] := by
  cases l with
  | nil => exact Except.noConfusion he
  | cons a t =>
    cases t with
    | nil => exact Except.noConfusion he
    | cons b u =>
      cases u with
      | nil =>
        replace he : Except.ok ((a, b) : Nat × Nat) = Except.ok (h, w) := he
        injection he with h2
        injection h2 with e1 e2
        rw [e1, e2]
      | cons c v => exact Except.noConfusion he

theorem readDims_true_shape (b : Buf α) (h w : Nat)
    (he : readDims true b = Except.ok (h, w)) :
    ∃ n c, b.shape = [n, c, h, w] := by
  replace he : unpack2 (b.shape.drop 2) = Except.ok (h, w) := he
  have hl : b.shape.drop 2 = [h, w] := unpack2_ok _ _ _ he
  cases hs : b.shape with
  | nil => rw [hs] at hl; simp at hl
  | cons a t =>
    cases t with
    | nil => rw [hs] at hl; simp at hl
    | cons a2 u =>
      rw [hs] at hl
      replace hl : u = [h, w] := hl
      refine ⟨a, a2, ?_⟩
      rw [hl]


theorem readDims_false_shape (b : Buf α) (h w : Nat)
    (he : readDims false b = Except.ok (h, w)) :
    ∃ rest, b.shape = h :: w :: rest := by
  replace he : unpack2 (b.shape.take 2) = Except.ok (h, w) := he
  have hl : b.shape.take 2 = [h, w] := unpack2_ok _ _ _ he
  cases hs : b.shape with
  | nil => rw [hs] at hl; simp at hl
  | cons a t =>
    cases t with
    | nil =>
      rw [hs] at hl
      replace hl : [a] = [h, w] := hl
      simp at hl
    | cons a2 u =>
      rw [hs] at hl
      replace hl : [a, a2] = [h, w] := hl
      injection hl with e1 hl2
      injection hl2 with e2 _
      refine ⟨u, ?_⟩
      rw [e1, e2]

/-- Reduction of a paired_random_crop call once the first buffers of both
groups and their dimension reads are known. -/
theorem prc_unfold (img_gts img_lqs : Group (Buf α)) (p s rT rL : Nat)
    (g0 l0 : Buf α) (hg0 : img_gts.toList.head? = some g0)
    (hl0 : img_lqs.toList.head? = some l0)
    (hlq wlq hgt wgt : Nat)
    (hdL : readDims g0.isTensor l0 = Except.ok (hlq, wlq))
    (hdG : readDims g0.isTensor g0 = Except.ok (hgt, wgt)) :
    paired_random_crop img_gts img_lqs p s rT rL
      = (if hgt ≠ hlq * s ∨ wgt ≠ wlq * s then PrcOut.exit 1
         else if hlq < p ∨ wlq < p then PrcOut.exit 1
         else PrcOut.ok
            (unwrapList (img_gts.toList.map
              (cropBuf g0.isTensor (rT / 16 * 16 * s) (rL / 16 * 16 * s) (p * s))),
             unwrapList (img_lqs.toList.map
              (cropBuf g0.isTensor (rT / 16 * 16) (rL / 16 * 16) p)))) := by
  simp only [paired_random_crop, hg0, hl0, hdL, hdG]

/-- C2: with the spatial dimensions read as the source reads them,
paired_random_crop terminates the process with exit code 1 exactly when the
scale validation or the patch-size validation fails, and returns normally on
every input passing both. -/
theorem C2_fatal_validation (img_gts img_lqs : Group (Buf α)) (p s rT rL : Nat)
    (g0 l0 : Buf α) (hg0 : img_gts.toList.head? = some g0)
    (hl0 : img_lqs.toList.head? = some l0)
    (hlq wlq hgt wgt : Nat)
    (hdL : readDims g0.isTensor l0 = Except.ok (hlq, wlq))
    (hdG : readDims g0.isTensor g0 = Except.ok (hgt, wgt)) :
    (paired_random_crop img_gts img_lqs p s rT rL = PrcOut.exit 1
      ↔ (hgt ≠ hlq * s ∨ wgt ≠ wlq * s ∨ hlq < p ∨ wlq < p))
    ∧ ((hgt = hlq * s ∧ wgt = wlq * s ∧ p ≤ hlq ∧ p ≤ wlq) →
        prcIsOk (paired_random_crop img_gts img_lqs p s rT rL) = true) := by
  rw [prc_unfold img_gts img_lqs p s rT rL g0 l0 hg0 hl0 hlq wlq hgt wgt hdL hdG]
  constructor
  · constructor
    · intro hx
      by_cases c1 : hgt ≠ hlq * s ∨ wgt ≠ wlq * s
      · tauto
      · rw [if_neg c1] at hx
        by_cases c2 : hlq < p ∨ wlq < p
        · tauto
        · rw [if_neg c2] at hx
          exact PrcOut.noConfusion hx
    · intro hx
      by_cases c1 : hgt ≠ hlq * s ∨ wgt ≠ wlq * s
      · rw [if_pos c1]
      · rw [if_neg c1]
        have c2 : hlq < p ∨ wlq < p := by tauto
        rw [if_pos c2]
  · rintro ⟨e1, e2, e3, e4⟩
    have c1 : ¬(hgt ≠ hlq * s ∨ wgt ≠ wlq * s) := by simp [e1, e2]
    have c2 : ¬(hlq < p ∨ wlq < p) := by omega
    rw [if_neg c1, if_neg c2]
    rfl

/-- Witness for C2 at the concrete mismatch from the spec: GT 101 × 100, LQ
50 × 50, scale 2. -/
theorem C2_witness :
    (paired_random_crop (Group.single (npBuf 101 100)) (Group.single (npBuf 50 50))
        10 2 0 0 = PrcOut.exit 1
      ↔ ((101 : Nat) ≠ 50 * 2 ∨ (100 : Nat) ≠ 50 * 2 ∨ (50 : Nat) < 10 ∨ (50 : Nat) < 10))
    ∧ (((101 : Nat) = 50 * 2 ∧ (100 : Nat) = 50 * 2 ∧ (10 : Nat) ≤ 50 ∧ (10 : Nat) ≤ 50) →
        prcIsOk (paired_random_crop (Group.single (npBuf 101 100))
          (Group.single (npBuf 50 50)) 10 2 0 0) = true) :=
  C2_fatal_validation (Group.single (npBuf 101 100)) (Group.single (npBuf 50 50))
    10 2 0 0 (npBuf 101 100) (npBuf 50 50) rfl rfl 50 50 101 100 (by decide) (by decide)

theorem list_map_congr (l : List β) (f g : β → γ) (h : ∀ b ∈ l, f b = g b) :
    l.map f = l.map g := by
  induction l with
  | nil => rfl
  | cons a t ih =>
    simp only [List.map_cons]
    rw [h a (by simp), ih (fun b hb => h b (by simp [hb]))]

/-- Spatial size of a cropped buffer: when the crop rectangle fits inside the
dimensions the source reads, the resulting spatial extent is exactly the
requested size in both axes. -/
theorem cropBuf_spatial (isT : Bool) (b : Buf α) (hgt wgt top left sz : Nat)
    (hd : readDims isT b = Except.ok (hgt, wgt))
    (h1 : top + sz ≤ hgt) (h2 : left + sz ≤ wgt) :
    spatialDims isT (cropBuf isT top left sz b) = (sz, sz) := by
  cases isT with
  | true =>
    obtain ⟨n, c, hsh⟩ := readDims_true_shape b hgt wgt hd
    have e1 : (sliceAx b 2 top sz).shape
        = b.shape.set 2 (min (top + sz) (b.shape.getD 2 0) - min top (b.shape.getD 2 0)) :=
      rfl
    have e2 : (sliceAx b 2 top sz).shape = [n, c, sz, wgt] := by
      rw [e1, hsh]
      rw [show ([n, c, hgt, wgt] : List Nat).getD 2 0 = hgt from rfl]
      rw [show min (top + sz) hgt - min top hgt = sz by omega]
      rfl
    have e3 : (sliceAx (sliceAx b 2 top sz) 3 left sz).shape
        = (sliceAx b 2 top sz).shape.set 3
            (min (left + sz) ((sliceAx b 2 top sz).shape.getD 3 0)
              - min left ((sliceAx b 2 top sz).shape.getD 3 0)) := rfl
    have e4 : (sliceAx (sliceAx b 2 top sz) 3 left sz).shape = [n, c, sz, sz] := by
      rw [e3, e2]
      rw [show ([n, c, sz, wgt] : List Nat).getD 3 0 = wgt from rfl]
      rw [show min (left + sz) wgt - min left wgt = sz by omega]
      rfl
    show ((sliceAx (sliceAx b 2 top sz) 3 left sz).shape.getD 2 0,
          (sliceAx (sliceAx b 2 top sz) 3 left sz).shape.getD 3 0) = (sz, sz)
    rw [e4]
    rfl
  | false =>
    obtain ⟨rest, hsh⟩ := readDims_false_shape b hgt wgt hd
    have e1 : (sliceAx b 0 top sz).shape
        = b.shape.set 0 (min (top + sz) (b.shape.getD 0 0) - min top (b.shape.getD 0 0)) :=
      rfl
    have e2 : (sliceAx b 0 top sz).shape = sz :: wgt :: rest := by
      rw [e1, hsh]
      rw [show (hgt :: wgt :: rest).getD 0 0 = hgt from rfl]
      rw [show min (top + sz) hgt - min top hgt = sz by omega]
      rfl
    have e3 : (sliceAx (sliceAx b 0 top sz) 1 left sz).shape
        = (sliceAx b 0 top sz).shape.set 1
            (min (left + sz) ((sliceAx b 0 top sz).shape.getD 1 0)
              - min left ((sliceAx b 0 top sz).shape.getD 1 0)) := rfl
    have e4 : (sliceAx (sliceAx b 0 top sz) 1 left sz).shape = sz :: sz :: rest := by
      rw [e3, e2]
      rw [show (sz :: wgt :: rest).getD 1 0 = wgt from rfl]
      rw [show min (left + sz) wgt - min left wgt = sz by omega]
      rfl
    show ((sliceAx (sliceAx b 0 top sz) 1 left sz).shape.getD 0 0,
          (sliceAx (sliceAx b 0 top sz) 1 left sz).shape.getD 1 0) = (sz, sz)
    rw [e4]
    rfl

/-- C1: on every valid call (scale relation holds, patch fits, draws within
their ranges), paired_random_crop returns normally; the LQ crop origin is the
draw rounded down to a multiple of 16, lies within the valid range, and the
GT crop is taken at the origin scaled by the factor with patch size
lq_patch_size * scale; every returned GT buffer has spatial size exactly
scale times the returned LQ patch size in both axes. -/
theorem C1_scale_consistency (img_gts img_lqs : Group (Buf α)) (p s rT rL : Nat)
    (g0 l0 : Buf α) (hg0 : img_gts.toList.head? = some g0)
    (hl0 : img_lqs.toList.head? = some l0)
    (hlq wlq hgt wgt : Nat)
    (hdL : readDims g0.isTensor l0 = Except.ok (hlq, wlq))
    (hdG : readDims g0.isTensor g0 = Except.ok (hgt, wgt))
    (hH : hgt = hlq * s) (hW : wgt = wlq * s)
    (hpH : p ≤ hlq) (hpW : p ≤ wlq)
    (hrT : rT ≤ hlq - p) (hrL : rL ≤ wlq - p)
    (hallG : ∀ b ∈ img_gts.toList, readDims g0.isTensor b = Except.ok (hgt, wgt))
    (hallL : ∀ b ∈ img_lqs.toList, readDims g0.isTensor b = Except.ok (hlq, wlq)) :
    paired_random_crop img_gts img_lqs p s rT rL
      = PrcOut.ok
          (unwrapList (img_gts.toList.map
            (cropBuf g0.isTensor (rT / 16 * 16 * s) (rL / 16 * 16 * s) (p * s))),
           unwrapList (img_lqs.toList.map
            (cropBuf g0.isTensor (rT / 16 * 16) (rL / 16 * 16) p)))
    ∧ rT / 16 * 16 % 16 = 0 ∧ rL / 16 * 16 % 16 = 0
    ∧ rT / 16 * 16 ≤ hlq - p ∧ rL / 16 * 16 ≤ wlq - p
    ∧ img_gts.toList.map (fun b =>
        spatialDims g0.isTensor
          (cropBuf g0.isTensor (rT / 16 * 16 * s) (rL / 16 * 16 * s) (p * s) b))
      = img_gts.toList.map (fun _ => (p * s, p * s))
    ∧ img_lqs.toList.map (fun b =>
        spatialDims g0.isTensor
          (cropBuf g0.isTensor (rT / 16 * 16) (rL / 16 * 16) p b))
      = img_lqs.toList.map (fun _ => (p, p)) := by
  have htop : rT / 16 * 16 ≤ hlq - p :=
    le_trans (Nat.div_mul_le_self rT 16) hrT
  have hleft : rL / 16 * 16 ≤ wlq - p :=
    le_trans (Nat.div_mul_le_self rL 16) hrL
  have htopg : rT / 16 * 16 * s + p * s ≤ hgt := by
    have hx : rT / 16 * 16 + p ≤ hlq := by omega
    calc rT / 16 * 16 * s + p * s = (rT / 16 * 16 + p) * s := by ring
      _ ≤ hlq * s := Nat.mul_le_mul_right s hx
      _ = hgt := hH.symm
  have hleftg : rL / 16 * 16 * s + p * s ≤ wgt := by
    have hx : rL / 16 * 16 + p ≤ wlq := by omega
    calc rL / 16 * 16 * s + p * s = (rL / 16 * 16 + p) * s := by ring
      _ ≤ wlq * s := Nat.mul_le_mul_right s hx
      _ = wgt := hW.symm
  refine ⟨?_, Nat.mul_mod_left (rT / 16) 16, Nat.mul_mod_left (rL / 16) 16,
      htop, hleft, ?_, ?_⟩
  · rw [prc_unfold img_gts img_lqs p s rT rL g0 l0 hg0 hl0 hlq wlq hgt wgt hdL hdG]
    have c1 : ¬(hgt ≠ hlq * s ∨ wgt ≠ wlq * s) := by simp [hH, hW]
    have c2 : ¬(hlq < p ∨ wlq < p) := by omega
    rw [if_neg c1, if_neg c2]
  · exact list_map_congr _ _ _ (fun b hb =>
      cropBuf_spatial g0.isTensor b hgt wgt _ _ _ (hallG b hb) htopg hleftg)
  · exact list_map_congr _ _ _ (fun b hb =>
      cropBuf_spatial g0.isTensor b hlq wlq _ _ _ (hallL b hb) (by omega) (by omega))

/-- Witness for C1 at a concrete numpy pair: GT 64 × 64, LQ 32 × 32, scale 2,
patch 16, draws 16 and 5. -/
theorem C1_witness :
    paired_random_crop (Group.single (npBuf 64 64)) (Group.single (npBuf 32 32))
        16 2 16 5
      = PrcOut.ok
          (unwrapList ((Group.single (npBuf 64 64)).toList.map
            (cropBuf (npBuf 64 64).isTensor (16 / 16 * 16 * 2) (5 / 16 * 16 * 2) (16 * 2))),
           unwrapList ((Group.single (npBuf 32 32)).toList.map
            (cropBuf (npBuf 64 64).isTensor (16 / 16 * 16) (5 / 16 * 16) 16)))
    ∧ (16 : Nat) / 16 * 16 % 16 = 0 ∧ (5 : Nat) / 16 * 16 % 16 = 0
    ∧ (16 : Nat) / 16 * 16 ≤ 32 - 16 ∧ (5 : Nat) / 16 * 16 ≤ 32 - 16
    ∧ (Group.single (npBuf 64 64)).toList.map (fun b =>
        spatialDims (npBuf 64 64).isTensor
          (cropBuf (npBuf 64 64).isTensor (16 / 16 * 16 * 2) (5 / 16 * 16 * 2) (16 * 2) b))
      = (Group.single (npBuf 64 64)).toList.map (fun _ => (16 * 2, 16 * 2))
    ∧ (Group.single (npBuf 32 32)).toList.map (fun b =>
        spatialDims (npBuf 64 64).isTensor
          (cropBuf (npBuf 64 64).isTensor (16 / 16 * 16) (5 / 16 * 16) 16 b))
      = (Group.single (npBuf 32 32)).toList.map (fun _ => (16, 16)) :=
  C1_scale_consistency (Group.single (npBuf 64 64)) (Group.single (npBuf 32 32))
    16 2 16 5 (npBuf 64 64) (npBuf 32 32) rfl rfl 32 32 64 64
    (by decide) (by decide) (by decide) (by decide) (by decide) (by decide)
    (by decide) (by decide) (by decide) (by decide)

/-- C3 (amended): for both paired_random_crop and basic_augment, each output
group is the image-wise map of one crop or transform over the input list,
unwrapped by the singleton convention: a single (non-list) buffer in yields a
single buffer out, a list of length at least 2 in yields the list of its
transformed elements in the same order, and a one-element list in yields the
single transformed buffer, not a one-element list. -/
theorem C3_cardinality :
    (∀ (α : Type) (img_gts img_lqs : Group (Buf α)) (p s rT rL : Nat) (g0 : Buf α)
        (og ol : Group (Buf α)),
        img_gts.toList.head? = some g0 →
        paired_random_crop img_gts img_lqs p s rT rL = PrcOut.ok (og, ol) →
        og = unwrapList (img_gts.toList.map
          (cropBuf g0.isTensor (rT / 16 * 16 * s) (rL / 16 * 16 * s) (p * s)))
        ∧ ol = unwrapList (img_lqs.toList.map
          (cropBuf g0.isTensor (rT / 16 * 16) (rL / 16 * 16) p)))
    ∧ (∀ (α : Type) (imgs : Group (NpArr α)) (hflip rotation : Bool)
        (fp rp s1 s2 s3 : Rat) (out : Group (NpArr α)),
        basic_augment imgs hflip rotation fp rp s1 s2 s3 false
          = Except.ok (BAOut.plain out) →
        out = unwrapList (imgs.toList.map (applyTriple (hflip && decide (s1 ≤ fp))
          (rotation && decide (s2 ≤ fp)) (rotation && decide (s3 ≤ rp)))))
    ∧ (∀ (β : Type) (x : β), unwrapList [x] = Group.single x)
    ∧ (∀ (β : Type) (l : List β), 2 ≤ l.length → unwrapList l = Group.many l) := by
  refine ⟨?_, ?_, ?_, ?_⟩
  · intro α img_gts img_lqs p s rT rL g0 og ol hg0 h
    cases hl0 : img_lqs.toList.head? with
    | none =>
      simp only [paired_random_crop, hg0, hl0] at h
      exact PrcOut.noConfusion h
    | some l0 =>
      cases hdl : readDims g0.isTensor l0 with
      | error m =>
        simp only [paired_random_crop, hg0, hl0, hdl] at h
        exact PrcOut.noConfusion h
      | ok pl =>
        cases pl with
        | mk hlq wlq =>
          cases hdg : readDims g0.isTensor g0 with
          | error m =>
            simp only [paired_random_crop, hg0, hl0, hdl, hdg] at h
            exact PrcOut.noConfusion h
          | ok pg =>
            cases pg with
            | mk hgt wgt =>
              rw [prc_unfold img_gts img_lqs p s rT rL g0 l0 hg0 hl0 hlq wlq
                hgt wgt hdl hdg] at h
              by_cases c1 : hgt ≠ hlq * s ∨ wgt ≠ wlq * s
              · rw [if_pos c1] at h
                exact PrcOut.noConfusion h
              · rw [if_neg c1] at h
                by_cases c2 : hlq < p ∨ wlq < p
                · rw [if_pos c2] at h
                  exact PrcOut.noConfusion h
                · rw [if_neg c2] at h
                  injection h with h2
                  exact ⟨(congrArg Prod.fst h2).symm, (congrArg Prod.snd h2).symm⟩
  · intro α imgs hflip rotation fp rp s1 s2 s3 out h
    exact basic_augment_ok_plain imgs hflip rotation fp rp s1 s2 s3 out h
  · intro β x
    rfl
  · intro β l hl
    exact unwrapList_long l hl

/-- C3 counterexample: a one-element sequence group does not come back as a
one-element sequence: both functions return the bare buffer instead, so the
claim fails at N = 1. -/
theorem C3_counterexample :
    prcGtSingle (paired_random_crop (Group.many [npBuf 32 32])
      (Group.many [npBuf 32 32]) 32 1 0 0) = true
    ∧ baPlainSingle (basic_augment (Group.many [wImg2]) false false 0 0 0 0 0 false)
      = true :=
  ⟨rfl, rfl⟩

/-- Witness for C3 at a two-element sequence call of paired_random_crop and a
two-element sequence call of basic_augment. -/
theorem C3_witness :
    (Group.many [cropBuf false 0 0 32 (npBuf 32 32), cropBuf false 0 0 32 (npBuf 32 32)]
        = unwrapList ((Group.many [npBuf 32 32, npBuf 32 32]).toList.map
            (cropBuf (npBuf 32 32).isTensor (0 / 16 * 16 * 1) (0 / 16 * 16 * 1) (32 * 1)))
      ∧ Group.many [cropBuf false 0 0 32 (npBuf 32 32), cropBuf false 0 0 32 (npBuf 32 32)]
        = unwrapList ((Group.many [npBuf 32 32, npBuf 32 32]).toList.map
            (cropBuf (npBuf 32 32).isTensor (0 / 16 * 16) (0 / 16 * 16) 32)))
    ∧ Group.many [wImg2, wImg2]
        = unwrapList ((Group.many [wImg2, wImg2]).toList.map
            (applyTriple (false && decide ((0 : Rat) ≤ 0))
              (false && decide ((0 : Rat) ≤ 0)) (false && decide ((0 : Rat) ≤ 0)))) :=
  ⟨C3_cardinality.1 Nat (Group.many [npBuf 32 32, npBuf 32 32])
      (Group.many [npBuf 32 32, npBuf 32 32]) 32 1 0 0 (npBuf 32 32)
      (Group.many [cropBuf false 0 0 32 (npBuf 32 32), cropBuf false 0 0 32 (npBuf 32 32)])
      (Group.many [cropBuf false 0 0 32 (npBuf 32 32), cropBuf false 0 0 32 (npBuf 32 32)])
      rfl rfl,
   C3_cardinality.2.1 Nat (Group.many [wImg2, wImg2]) false false 0 0 0 0 0
      (Group.many [wImg2, wImg2]) (by decide)⟩

/-- C4 (amended): the input representation is determined once from the first
GT buffer; on the array-like path the spatial dimensions are read from the
leading two axes; on the tensor path they are read by unpacking shape
positions 2 and onward, which equals the trailing two axes exactly for 4-D
buffers, while for a 3-D (channels, height, width) tensor buffer the read
raises an unpacking error instead of reading the trailing two axes — and the
whole call fails even when only the LQ group holds such a buffer, because the
tensor path was chosen from the GT buffer. -/
theorem C4_dims_read :
    (∀ (α : Type) (b : Buf α) (n c h w : Nat), b.shape = [n, c, h, w] →
        readDims true b = Except.ok (h, w)
        ∧ trailingTwoAxes b.shape = some (h, w))
    ∧ (∀ (α : Type) (b : Buf α) (c h w : Nat), b.shape = [c, h, w] →
        readDims true b = Except.error unpackErrMsg
        ∧ trailingTwoAxes b.shape = some (h, w))
    ∧ (∀ (α : Type) (b : Buf α) (h w : Nat) (rest : List Nat),
        b.shape = h :: w :: rest →
        readDims false b = Except.ok (h, w)
        ∧ leadingTwoAxes b.shape = some (h, w))
    ∧ (∀ (α : Type) (img_gts img_lqs : Group (Buf α)) (p s rT rL : Nat)
        (g0 l0 : Buf α) (c h w : Nat),
        img_gts.toList.head? = some g0 → img_lqs.toList.head? = some l0 →
        g0.isTensor = true → l0.shape = [c, h, w] →
        paired_random_crop img_gts img_lqs p s rT rL = PrcOut.err unpackErrMsg) := by
  refine ⟨?_, ?_, ?_, ?_⟩
  · intro α b n c h w hsh
    constructor
    · show unpack2 (b.shape.drop 2) = Except.ok (h, w)
      rw [hsh]
      rfl
    · rw [hsh]
      rfl
  · intro α b c h w hsh
    constructor
    · show unpack2 (b.shape.drop 2) = Except.error unpackErrMsg
      rw [hsh]
      rfl
    · rw [hsh]
      rfl
  · intro α b h w rest hsh
    constructor
    · show unpack2 (b.shape.take 2) = Except.ok (h, w)
      rw [hsh]
      rfl
    · rw [hsh]
      rfl
  · intro α img_gts img_lqs p s rT rL g0 l0 c h w hg0 hl0 hT hsh
    have hdl : readDims g0.isTensor l0 = Except.error unpackErrMsg := by
      rw [hT]
      show unpack2 (l0.shape.drop 2) = Except.error unpackErrMsg
      rw [hsh]
      rfl
    simp only [paired_random_crop, hg0, hl0, hdl]

/-- C4 counterexample: with a 3-D (channels, height, width) tensor buffer of
shape [3, 8, 8] on both sides, the trailing two axes read (8, 8) — under
which the call would validate and return — but the call instead fails with
the unpacking error, refuting the claim that the tensor path reads the
trailing two axes. -/
theorem C4_counterexample :
    prcIsErr (paired_random_crop (Group.single (tBuf3 3 8 8))
      (Group.single (tBuf3 3 8 8)) 8 1 0 0) = true
    ∧ trailingTwoAxes (tBuf3 3 8 8).shape = some (8, 8) :=
  ⟨rfl, rfl⟩

/-- Witness for C4 at a concrete 4-D tensor buffer and a concrete 2-D numpy
buffer, plus a full call whose LQ group holds a 3-D tensor buffer. -/
theorem C4_witness :
    (readDims true (tBuf4 1 3 8 8) = Except.ok (8, 8)
      ∧ trailingTwoAxes (tBuf4 1 3 8 8).shape = some (8, 8))
    ∧ (readDims false (npBuf 6 7) = Except.ok (6, 7)
      ∧ leadingTwoAxes (npBuf 6 7).shape = some (6, 7))
    ∧ paired_random_crop (Group.single (tBuf4 1 3 8 8)) (Group.single (tBuf3 3 8 8))
        8 1 0 0 = PrcOut.err unpackErrMsg :=
  ⟨C4_dims_read.1 Nat (tBuf4 1 3 8 8) 1 3 8 8 rfl,
   C4_dims_read.2.2.1 Nat (npBuf 6 7) 6 7 [] rfl,
   C4_dims_read.2.2.2 Nat (Group.single (tBuf4 1 3 8 8)) (Group.single (tBuf3 3 8 8))
     8 1 0 0 (tBuf4 1 3 8 8) (tBuf3 3 8 8) 3 8 8 rfl rfl rfl rfl⟩

end NeosrTransforms
